import Mathlib

/-!
# Hypervisor_CLI: VM lifecycle orchestration

A shallow embedding of `src/Hypervisor_CLI.cpp`: `startVM`, `stopVM`,
`forceStopVM`, `createVM`, `deleteVM` and the argument handling of `main`,
menu case 2.

Modelling conventions.

* `Str` stands for a NUL-free `std::string` / C string, so `c_str()` is the
  identity.
* `int` values are `Int`; the one arithmetic operation of the program,
  `memoryMB * 1024`, is reduced into the 32-bit two's-complement range with
  `wrap32`.
* The libvirt connection is a record of functions over an arbitrary state.
  Look-ups and queries read the state, the other calls may change it.
  `virDomainGetXMLDesc` is taken to return a text (the source dereferences the
  result unconditionally); `virDomainFree` and console output have no
  counterpart.
* The file system maps a path text to the content of the regular file that
  opening this text yields.  The system resolves the `.` and `..` components
  of an absolute path (`resolve`), so `unlink` removes the file under every
  text that resolves to the same place; symbolic and hard links are not
  modelled, and a relative path is left as it is.
* `system` is a parameter: an arbitrary transformation of the file system that
  also yields an exit status.
* Every call that leaves the process (shell command, `unlink`, libvirt call) is
  appended to a log, oldest first.
-/

namespace HypervisorCLI

/-- Text: a NUL-free byte string. -/
abbrev Str := List Char

/-- File system: path text to file content. -/
abbrev FS := Str → Option Str

/-- The external command runner behind `system(cmd)`. -/
abbrev Shell := Str → FS → Int × FS

/-- The single quote character. -/
def quote : Char := Char.ofNat 39

/-! ## Machine integers and `std::to_string` -/

/-- Reduction of an integer into the range of a 32-bit `int`. -/
def wrap32 (x : Int) : Int := (x + 2147483648) % 4294967296 - 2147483648

/-- Decimal digits of a natural number, most significant first. -/
def decimal (n : Nat) : Str := Nat.toDigits 10 n

/-- Model of `std::to_string(int)`: an optional minus sign followed by the digits. -/
def to_string (i : Int) : Str :=
  if i < 0 then Char.ofNat 45 :: decimal i.natAbs else decimal i.natAbs

/-! ## `std::string::find` and `substr` -/

/-- Search for `pat` in the remaining text; `i` is the index of its first
character in the whole string. -/
def findFrom (pat : Str) : Str → Nat → Option Nat
  | [], i => if pat.isPrefixOf [] then some i else none
  | c :: cs, i => if pat.isPrefixOf (c :: cs) then some i else findFrom pat cs (i + 1)

/-- Model of `s.find(pat, pos)`; `none` is `npos`. -/
def find (s pat : Str) (pos : Nat) : Option Nat :=
  if pos ≤ s.length then findFrom pat (s.drop pos) pos else none

/-- Model of `s.substr(pos, n)` for `pos ≤ s.size()`. -/
def substr (s : Str) (pos n : Nat) : Str := (s.drop pos).take n

/-! ## The collaborators -/

/-- The libvirt calls the program makes, over a connection state `σ` and
domain handles `δ`. -/
structure Hypervisor (σ δ : Type) where
  /-- Call `virDomainLookupByName`; `none` is the null handle. -/
  lookupByName : σ → Str → Option δ
  /-- Call `virDomainCreate` (start). -/
  create : σ → δ → Int × σ
  /-- Call `virDomainShutdown`. -/
  shutdown : σ → δ → Int × σ
  /-- Call `virDomainDestroy`. -/
  destroy : σ → δ → Int × σ
  /-- Call `virDomainUndefine`. -/
  undefine : σ → δ → Int × σ
  /-- Call `virDomainIsActive`. -/
  isActive : σ → δ → Int
  /-- Call `virDomainGetXMLDesc`. -/
  getXMLDesc : σ → δ → Str
  /-- Call `virDomainDefineXML`; `none` is the null handle. -/
  defineXML : σ → Str → Option δ × σ

/-- Calls leaving the process. -/
inductive Event (δ : Type) where
  | system (cmd : Str)
  | unlink (path : Str)
  | lookupByName (name : Str)
  | create (dom : δ)
  | shutdown (dom : δ)
  | destroy (dom : δ)
  | undefine (dom : δ)
  | isActive (dom : δ)
  | getXMLDesc (dom : δ)
  | defineXML (xml : Str)
  deriving DecidableEq

/-- Whether an event is a file removal. -/
def Event.isUnlink {δ : Type} : Event δ → Bool
  | .unlink _ => true
  | _ => false

/-- Whether an event is a libvirt call. -/
def Event.isHypervisorCall {δ : Type} : Event δ → Bool
  | .system _ => false
  | .unlink _ => false
  | _ => true

/-- Everything outside the process. -/
structure World (σ δ : Type) where
  fs : FS
  hv : σ
  log : List (Event δ)

/-- Model of `ifstream(path).good()`: the file can be opened for reading. -/
def fileGood (fs : FS) (path : Str) : Bool := (fs path).isSome

/-- The components of a path: the stretches between slashes. -/
def splitSlash : Str → List Str
  | [] => [[]]
  | c :: cs =>
    if c = Char.ofNat 47 then [] :: splitSlash cs
    else
      match splitSlash cs with
      | [] => [[c]]
      | w :: ws => (c :: w) :: ws

/-- Walk along the components of an absolute path; the directories entered
so far are kept innermost first.  An empty component and `.` stay, `..` goes
up one directory and stays at the root. -/
def walk : List Str → List Str → List Str
  | stack, [] => stack
  | stack, comp :: rest =>
    if comp = [] ∨ comp = [Char.ofNat 46] then walk stack rest
    else if comp = [Char.ofNat 46, Char.ofNat 46] then walk stack.tail rest
    else walk (comp :: stack) rest

/-- The place an absolute path denotes once `.` and `..` are resolved, as the
system does for `unlink` and `open` when no symbolic link is met. -/
def resolve (p : Str) : Str :=
  match p with
  | [] => []
  | c :: _ =>
    if c = Char.ofNat 47 then
      Char.ofNat 47 :: List.intercalate [Char.ofNat 47] (walk [] (splitSlash p)).reverse
    else p

/-- Effect of `unlink(path)` on the file system: the file is gone under every
text that resolves to the place `path` resolves to. -/
def unlinkFS (fs : FS) (path : Str) : FS :=
  fun p => if resolve p = resolve path then none else fs p

/-! ## Start -/

/-- Function `startVM`, source lines 34-49. -/
def startVM {σ δ : Type} (conn : Hypervisor σ δ) (w : World σ δ) (vmName : Str) :
    Bool × World σ δ :=
  let w1 : World σ δ := { w with log := w.log ++ [Event.lookupByName vmName] }
  match conn.lookupByName w.hv vmName with
  | none => (false, w1)
  | some dom =>
    let r := conn.create w.hv dom
    let w2 : World σ δ := { w1 with hv := r.2, log := w1.log ++ [Event.create dom] }
    if r.1 < 0 then (false, w2) else (true, w2)

/-- Function `stopVM`, source lines 51-66. -/
def stopVM {σ δ : Type} (conn : Hypervisor σ δ) (w : World σ δ) (vmName : Str) :
    Bool × World σ δ :=
  let w1 : World σ δ := { w with log := w.log ++ [Event.lookupByName vmName] }
  match conn.lookupByName w.hv vmName with
  | none => (false, w1)
  | some dom =>
    let r := conn.shutdown w.hv dom
    let w2 : World σ δ := { w1 with hv := r.2, log := w1.log ++ [Event.shutdown dom] }
    if r.1 < 0 then (false, w2) else (true, w2)

/-- Function `forceStopVM`, source lines 68-83. -/
def forceStopVM {σ δ : Type} (conn : Hypervisor σ δ) (w : World σ δ) (vmName : Str) :
    Bool × World σ δ :=
  let w1 : World σ δ := { w with log := w.log ++ [Event.lookupByName vmName] }
  match conn.lookupByName w.hv vmName with
  | none => (false, w1)
  | some dom =>
    let r := conn.destroy w.hv dom
    let w2 : World σ δ := { w1 with hv := r.2, log := w1.log ++ [Event.destroy dom] }
    if r.1 < 0 then (false, w2) else (true, w2)

/-! ## Create -/

/-- The managed image directory, with its trailing slash. -/
def imageDir : Str := "/var/lib/libvirt/images/".toList

/-- Source line 97. -/
def diskPathOf (vmName : Str) : Str := imageDir ++ vmName ++ ".qcow2".toList

/-- Source line 98. -/
def createDiskCmd (diskPath : Str) (diskGB : Int) : Str :=
  "qemu-img create -f qcow2 ".toList ++ diskPath ++ " ".toList ++ to_string diskGB ++ "G".toList

/-- Descriptor text up to the name (source lines 105-107). -/
def xmlA : Str :=
  ("<?xml version='1.0' encoding='UTF-8'?>\n" ++
   "<domain type='kvm'>\n" ++
   "  <name>").toList

/-- Descriptor text between the name and the memory value (lines 107-108). -/
def xmlB : Str :=
  ("</name>\n" ++
   "  <memory unit='KiB'>").toList

/-- Descriptor text between the memory value and the vCPU count (lines 108-109). -/
def xmlC : Str :=
  ("</memory>\n" ++
   "  <vcpu>").toList

/-- Descriptor text between the vCPU count and the disk path (lines 109-125),
without the opening of the disk source attribute. -/
def xmlD : Str :=
  ("</vcpu>\n" ++
   "  <os>\n" ++
   "    <type arch='x86_64'>hvm</type>\n" ++
   "    <boot dev='cdrom'/>\n" ++
   "    <boot dev='hd'/>\n" ++
   "  </os>\n" ++
   "  <features>\n" ++
   "    <acpi/>\n" ++
   "    <apic/>\n" ++
   "    <vmport state='off'/>\n" ++
   "  </features>\n" ++
   "  <cpu mode='host-passthrough'/>\n" ++
   "  <clock offset='localtime'/>\n" ++
   "  <devices>\n" ++
   "    <disk type='file' device='disk'>\n" ++
   "      <driver name='qemu' type='qcow2'/>\n" ++
   "      ").toList

/-- The opening of a source attribute, `<source file='`; also the text
`deleteVM` searches for (lines 125, 131, 138 and 197). -/
def sourceMarker : Str := "<source file='".toList

/-- Descriptor text between the disk path and the installation medium
(lines 125-131), without the opening of the source attribute. -/
def xmlE : Str :=
  ("'/>\n" ++
   "      <target dev='vda' bus='virtio'/>\n" ++
   "      <address type='pci' domain='0x0000' bus='0x00' slot='0x04' function='0x0'/>\n" ++
   "    </disk>\n" ++
   "    <disk type='file' device='cdrom'>\n" ++
   "      <driver name='qemu' type='raw'/>\n" ++
   "      ").toList

/-- Descriptor text between the installation medium and the driver medium
(lines 131-138), without the opening of the source attribute. -/
def xmlF : Str :=
  ("'/>\n" ++
   "      <target dev='sda' bus='sata'/>\n" ++
   "      <readonly/>\n" ++
   "      <address type='drive' controller='0' bus='0' target='0' unit='0'/>\n" ++
   "    </disk>\n" ++
   "    <disk type='file' device='cdrom'>\n" ++
   "      <driver name='qemu' type='raw'/>\n" ++
   "      ").toList

/-- Descriptor text after the driver medium (lines 138-162). -/
def xmlG : Str :=
  ("'/>\n" ++
   "      <target dev='sdb' bus='sata'/>\n" ++
   "      <readonly/>\n" ++
   "      <address type='drive' controller='0' bus='0' target='0' unit='1'/>\n" ++
   "    </disk>\n" ++
   "    <controller type='sata' index='0'>\n" ++
   "      <address type='pci' domain='0x0000' bus='0x00' slot='0x05' function='0x0'/>\n" ++
   "    </controller>\n" ++
   "    <interface type='network'>\n" ++
   "      <source network='default'/>\n" ++
   "      <model type='virtio'/>\n" ++
   "      <address type='pci' domain='0x0000' bus='0x00' slot='0x03' function='0x0'/>\n" ++
   "    </interface>\n" ++
   "    <graphics type='vnc' port='-1' autoport='yes' listen='0.0.0.0'/>\n" ++
   "    <video>\n" ++
   "      <model type='virtio'/>\n" ++
   "      <address type='pci' domain='0x0000' bus='0x00' slot='0x02' function='0x0'/>\n" ++
   "    </video>\n" ++
   "    <input type='tablet' bus='usb'/>\n" ++
   "    <input type='keyboard' bus='ps2'/>\n" ++
   "    <input type='mouse' bus='ps2'/>\n" ++
   "    <controller type='usb' index='0' model='ich9-ehci1'/>\n" ++
   "    <controller type='pci' index='0' model='pci-root'/>\n" ++
   "  </devices>\n" ++
   "</domain>").toList

/-- The descriptor `xmlConfig` of source lines 105-162. -/
def xmlConfig (vmName isoPath virtioPath diskPath : Str) (memoryMB vcpus : Int) : Str :=
  xmlA ++ vmName ++ xmlB ++ to_string (wrap32 (memoryMB * 1024)) ++ xmlC ++ to_string vcpus ++
    xmlD ++ sourceMarker ++ diskPath ++ xmlE ++ sourceMarker ++ isoPath ++ xmlF ++
    sourceMarker ++ virtioPath ++ xmlG

/-- The arguments of `createVM`. -/
structure VMSpec where
  vmName : Str
  isoPath : Str
  virtioPath : Str
  memoryMB : Int
  vcpus : Int
  diskGB : Int

/-- The descriptor `createVM` builds for a specification. -/
def VMSpec.xml (s : VMSpec) : Str :=
  xmlConfig s.vmName s.isoPath s.virtioPath (diskPathOf s.vmName) s.memoryMB s.vcpus

/-- Function `createVM`, source lines 85-181.  The default arguments of the
source are not modelled: `main` passes every argument. -/
def createVM {σ δ : Type} (conn : Hypervisor σ δ) (sh : Shell) (w : World σ δ) (s : VMSpec) :
    Bool × World σ δ :=
  if !fileGood w.fs s.isoPath then (false, w)
  else if !fileGood w.fs s.virtioPath then (false, w)
  else
    let diskPath := diskPathOf s.vmName
    let cmd := createDiskCmd diskPath s.diskGB
    let ret := sh cmd w.fs
    let w1 : World σ δ := { w with fs := ret.2, log := w.log ++ [Event.system cmd] }
    if ret.1 ≠ 0 then (false, w1)
    else
      let xml := xmlConfig s.vmName s.isoPath s.virtioPath diskPath s.memoryMB s.vcpus
      let r := conn.defineXML w1.hv xml
      let w2 : World σ δ := { w1 with hv := r.2, log := w1.log ++ [Event.defineXML xml] }
      match r.1 with
      | none =>
        (false, { w2 with fs := unlinkFS w2.fs diskPath, log := w2.log ++ [Event.unlink diskPath] })
      | some _ => (true, w2)

/-- Menu case 2 of `main`, source lines 255-263: a value that is not positive
is replaced by its default before `createVM` is called. -/
def readVMSpec (vmName isoPath virtioPath : Str) (memoryMB vcpus diskGB : Int) : VMSpec :=
  { vmName := vmName
    isoPath := isoPath
    virtioPath := virtioPath
    memoryMB := if memoryMB ≤ 0 then 2048 else memoryMB
    vcpus := if vcpus ≤ 0 then 2 else vcpus
    diskGB := if diskGB ≤ 0 then 20 else diskGB }

/-! ## Delete -/

/-- The disk path `deleteVM` reads out of a descriptor, source lines 197-205. -/
def discoverDiskPath (xml : Str) : Str :=
  match find xml sourceMarker 0 with
  | none => []
  | some diskPos =>
    let diskPos := diskPos + 14
    match find xml [quote] diskPos with
    | none => []
    | some endPos => substr xml diskPos (endPos - diskPos)

/-- The test of source line 212. -/
def isManaged (diskPath : Str) : Bool :=
  !diskPath.isEmpty && decide (find diskPath imageDir 0 = some 0)

/-- Function `deleteVM`, source lines 183-218. -/
def deleteVM {σ δ : Type} (conn : Hypervisor σ δ) (w : World σ δ) (vmName : Str) :
    Bool × World σ δ :=
  let w1 : World σ δ := { w with log := w.log ++ [Event.lookupByName vmName] }
  match conn.lookupByName w.hv vmName with
  | none => (false, w1)
  | some dom =>
    let isActive := conn.isActive w1.hv dom
    let w2 : World σ δ := { w1 with log := w1.log ++ [Event.isActive dom] }
    let w3 : World σ δ :=
      if isActive = 1 then
        { w2 with hv := (conn.destroy w2.hv dom).2, log := w2.log ++ [Event.destroy dom] }
      else w2
    let xml := conn.getXMLDesc w3.hv dom
    let w4 : World σ δ := { w3 with log := w3.log ++ [Event.getXMLDesc dom] }
    let diskPath := discoverDiskPath xml
    let r := conn.undefine w4.hv dom
    let w5 : World σ δ := { w4 with hv := r.2, log := w4.log ++ [Event.undefine dom] }
    if r.1 < 0 then (false, w5)
    else if isManaged diskPath then
      (true, { w5 with fs := unlinkFS w5.fs diskPath, log := w5.log ++ [Event.unlink diskPath] })
    else (true, w5)

/-- The connection state in which `deleteVM` asks for the descriptor and
then undefines: the state after the force-stop of source lines 189-193. -/
def stateAfterStop {σ δ : Type} (conn : Hypervisor σ δ) (s : σ) (dom : δ) : σ :=
  if conn.isActive s dom = 1 then (conn.destroy s dom).2 else s

/-! ## Proof devices for text search -/

/-- A connection without any domain: every look-up and every definition fails. -/
def emptyConn : Hypervisor Unit Unit where
  lookupByName := fun _ _ => none
  create := fun s _ => (-1, s)
  shutdown := fun s _ => (-1, s)
  destroy := fun s _ => (-1, s)
  undefine := fun s _ => (-1, s)
  isActive := fun _ _ => 0
  getXMLDesc := fun _ _ => []
  defineXML := fun s _ => (none, s)

/-- A connection holding one inactive domain, known under every name, whose
descriptor is the state; `undefine` is refused when `ok` is false. -/
def oneDomainConn (ok : Bool) : Hypervisor Str Unit where
  lookupByName := fun _ _ => some ()
  create := fun s _ => (0, s)
  shutdown := fun s _ => (0, s)
  destroy := fun s _ => (0, s)
  undefine := fun s _ => (if ok then 0 else -1, s)
  isActive := fun _ _ => 0
  getXMLDesc := fun s _ => s
  defineXML := fun s _ => (some (), s)

/-- A file system holding exactly the two media files `/iso/win.iso` and
`/iso/virtio.iso`. -/
def mediaFS : FS := fun p =>
  if p = "/iso/win.iso".toList then some "iso".toList
  else if p = "/iso/virtio.iso".toList then some "virtio".toList
  else none

/-- A specification naming the two media files of `mediaFS`. -/
def specOf (vmName : Str) (memoryMB vcpus diskGB : Int) : VMSpec :=
  { vmName := vmName
    isoPath := "/iso/win.iso".toList
    virtioPath := "/iso/virtio.iso".toList
    memoryMB := memoryMB
    vcpus := vcpus
    diskGB := diskGB }

/-- An image tool that fails without touching the file system. -/
def failingShell : Shell := fun _ fs => (1, fs)

/-- An image tool that succeeds and writes the image `img` at `path`,
replacing what was there. -/
def writingShell (path img : Str) : Shell :=
  fun _ fs => (0, fun p => if p = path then some img else fs p)

/-- A descriptor whose disk source starts with the managed directory and
climbs out of it. -/
def traversalXml : Str :=
  ("<domain type='kvm'>\n" ++
   "  <name>g1</name>\n" ++
   "  <devices>\n" ++
   "    <disk type='file' device='disk'>\n" ++
   "      <source file='/var/lib/libvirt/images/../../../../mnt/shared/golden.qcow2'/>\n" ++
   "    </disk>\n" ++
   "  </devices>\n" ++
   "</domain>").toList

/-- A descriptor whose first source attribute belongs to a CD-ROM and names a
file in the managed directory. -/
def cdromFirstXml : Str :=
  ("<domain type='kvm'><devices>" ++
   "<disk type='file' device='cdrom'><source file='/var/lib/libvirt/images/boot.iso'/></disk>" ++
   "<disk type='file' device='disk'><source file='/var/lib/libvirt/images/d.qcow2'/></disk>" ++
   "</devices></domain>").toList

/-- The file system `mediaFS` with a shared image at
`/mnt/shared/golden.qcow2`, reachable under every text resolving there. -/
def goldenFS : FS := fun p =>
  if resolve p = "/mnt/shared/golden.qcow2".toList then some "golden".toList else mediaFS p

/-- The file system `mediaFS` with an image already stored at the managed
disk path of `vm1`. -/
def occupiedFS : FS := fun p =>
  if p = "/var/lib/libvirt/images/vm1.qcow2".toList then some "old".toList else mediaFS p

theorem findFrom_ge (pat : Str) : ∀ (s : Str) (i j : Nat), findFrom pat s i = some j → i ≤ j := by
  intro s
  induction s with
  | nil =>
    intro i j h
    simp only [findFrom] at h
    split at h
    · cases h; exact Nat.le_refl _
    · cases h
  | cons c cs ih =>
    intro i j h
    simp only [findFrom] at h
    split at h
    · cases h; exact Nat.le_refl _
    · exact Nat.le_of_succ_le (ih _ _ h)

theorem findFrom_eq_self (pat s : Str) (i : Nat) :
    findFrom pat s i = some i ↔ pat <+: s := by
  cases s with
  | nil =>
    simp only [findFrom]
    split
    · rename_i h; simpa using List.isPrefixOf_iff_prefix.mp h
    · rename_i h
      constructor
      · intro h2; cases h2
      · intro h2; exact absurd (List.isPrefixOf_iff_prefix.mpr h2) h
  | cons c cs =>
    simp only [findFrom]
    split
    · rename_i h; simpa using List.isPrefixOf_iff_prefix.mp h
    · rename_i h
      constructor
      · intro h2
        have := findFrom_ge pat cs _ _ h2
        omega
      · intro h2; exact absurd (List.isPrefixOf_iff_prefix.mpr h2) h

/-- First occurrence: `findFrom` answers `i + k` exactly when `pat` starts at
offset `k` and at no smaller offset. -/
theorem findFrom_eq_some (pat : Str) : ∀ (s : Str) (i k : Nat),
    findFrom pat s i = some (i + k) ↔
      (k ≤ s.length ∧ pat <+: s.drop k ∧ ∀ j, j < k → ¬ pat <+: s.drop j) := by
  intro s
  induction s with
  | nil =>
    intro i k
    cases k with
    | zero => simpa using findFrom_eq_self pat [] i
    | succ k =>
      constructor
      · intro h
        simp only [findFrom] at h
        split at h
        · simp at h
        · cases h
      · rintro ⟨h, -, -⟩
        simp at h
  | cons c cs ih =>
    intro i k
    cases k with
    | zero => simpa using findFrom_eq_self pat (c :: cs) i
    | succ k =>
      have hk : i + (k + 1) = (i + 1) + k := by omega
      simp only [findFrom]
      split
      · rename_i h
        constructor
        · intro h2; simp at h2
        · rintro ⟨-, -, h3⟩
          exact absurd (List.isPrefixOf_iff_prefix.mp h) (by simpa using h3 0 (Nat.succ_pos _))
      · rename_i h
        rw [hk, ih (i + 1) k]
        constructor
        · rintro ⟨h1, h2, h3⟩
          refine ⟨by simpa using h1, by simpa using h2, ?_⟩
          intro j hj
          cases j with
          | zero => simpa using fun hp => h (List.isPrefixOf_iff_prefix.mpr hp)
          | succ j => simpa using h3 j (by omega)
        · rintro ⟨h1, h2, h3⟩
          refine ⟨by simpa using h1, by simpa using h2, ?_⟩
          intro j hj
          simpa using h3 (j + 1) (by omega)

/-- No occurrence at all: `findFrom` answers `none`. -/
theorem findFrom_eq_none (pat : Str) : ∀ (s : Str) (i : Nat),
    findFrom pat s i = none ↔ ∀ j, j ≤ s.length → ¬ pat <+: s.drop j := by
  intro s
  induction s with
  | nil =>
    intro i
    simp only [findFrom]
    split
    · rename_i h
      constructor
      · intro h2; cases h2
      · intro h2; exact absurd (List.isPrefixOf_iff_prefix.mp h) (by simpa using h2 0)
    · rename_i h
      constructor
      · intro _ j hj
        have : j = 0 := by simpa using hj
        subst this
        simpa using fun hp => h (List.isPrefixOf_iff_prefix.mpr hp)
      · intro _; rfl
  | cons c cs ih =>
    intro i
    simp only [findFrom]
    split
    · rename_i h
      constructor
      · intro h2; cases h2
      · intro h2
        exact absurd (List.isPrefixOf_iff_prefix.mp h) (by simpa using h2 0 (Nat.zero_le _))
    · rename_i h
      rw [ih (i + 1)]
      constructor
      · intro h2 j hj
        cases j with
        | zero => simpa using fun hp => h (List.isPrefixOf_iff_prefix.mpr hp)
        | succ j => simpa using h2 j (by simpa using hj)
      · intro h2 j hj
        simpa using h2 (j + 1) (by simpa using hj)

theorem sourceMarker_length : sourceMarker.length = 14 := by decide

theorem singleton_prefix_mem (c : Char) (s : Str) (h : [c] <+: s) : c ∈ s :=
  h.subset (List.mem_singleton.mpr rfl)

theorem find_start (xml pat : Str) : find xml pat 0 = findFrom pat xml 0 := by
  simp [find]

/-- The closing quote is found right after a quote-free text. -/
theorem find_quote_after (pre p rest : Str) (hp : quote ∉ p) :
    find (pre ++ p ++ quote :: rest) [quote] pre.length = some (pre.length + p.length) := by
  have hle : pre.length ≤ (pre ++ p ++ quote :: rest).length := by simp
  have hdrop : (pre ++ p ++ quote :: rest).drop pre.length = p ++ quote :: rest := by
    rw [List.append_assoc, List.drop_left]
  unfold find
  rw [if_pos hle, hdrop, findFrom_eq_some]
  refine ⟨by simp, ?_, ?_⟩
  · rw [List.drop_left]
    exact List.prefix_iff_eq_append.mpr rfl
  · intro j hj hpre
    rw [List.drop_append_of_le_length (Nat.le_of_lt hj), List.drop_eq_getElem_cons hj,
      List.cons_append, List.cons_prefix_cons] at hpre
    exact hp (hpre.1 ▸ List.getElem_mem hj)

/-- No closing quote is found in a quote-free remainder. -/
theorem find_quote_absent (pre tail : Str) (ht : quote ∉ tail) :
    find (pre ++ tail) [quote] pre.length = none := by
  have hle : pre.length ≤ (pre ++ tail).length := by simp
  unfold find
  rw [if_pos hle, List.drop_left, findFrom_eq_none]
  intro j _ hpre
  exact ht (List.mem_of_mem_drop (singleton_prefix_mem _ _ hpre))

/-- The path read out of a descriptor whose first source attribute holds `p`. -/
theorem discoverDiskPath_eq (xml pre p rest : Str)
    (hxml : xml = pre ++ sourceMarker ++ p ++ quote :: rest)
    (hfirst : ∀ j, j < pre.length → ¬ sourceMarker <+: xml.drop j)
    (hp : quote ∉ p) : discoverDiskPath xml = p := by
  have hfind : find xml sourceMarker 0 = some pre.length := by
    rw [find_start]
    have := (findFrom_eq_some sourceMarker xml 0 pre.length).mpr
      ⟨by rw [hxml]; simp, by
        rw [hxml, List.append_assoc, List.append_assoc, List.drop_left]
        exact List.prefix_append _ _, hfirst⟩
    simpa using this
  have hq := find_quote_after (pre ++ sourceMarker) p rest hp
  rw [← hxml] at hq
  simp only [List.length_append, sourceMarker_length] at hq
  unfold discoverDiskPath
  rw [hfind]
  simp only [hq, substr]
  have : pre.length + 14 + p.length - (pre.length + 14) = p.length := by omega
  rw [this, hxml]
  have h14 : pre.length + 14 = (pre ++ sourceMarker).length := by
    simp [sourceMarker_length]
  rw [h14, List.append_assoc (pre ++ sourceMarker), List.drop_left, List.take_left]

/-- Without a source attribute the path is empty. -/
theorem discoverDiskPath_no_marker (xml : Str)
    (h : ∀ j, j ≤ xml.length → ¬ sourceMarker <+: xml.drop j) : discoverDiskPath xml = [] := by
  have hfind : find xml sourceMarker 0 = none := by
    rw [find_start]
    exact (findFrom_eq_none sourceMarker xml 0).mpr h
  unfold discoverDiskPath
  rw [hfind]

/-- Without a quote after the first source attribute the path is empty. -/
theorem discoverDiskPath_no_quote (xml pre tail : Str)
    (hxml : xml = pre ++ sourceMarker ++ tail)
    (hfirst : ∀ j, j < pre.length → ¬ sourceMarker <+: xml.drop j)
    (ht : quote ∉ tail) : discoverDiskPath xml = [] := by
  have hfind : find xml sourceMarker 0 = some pre.length := by
    rw [find_start]
    have := (findFrom_eq_some sourceMarker xml 0 pre.length).mpr
      ⟨by rw [hxml]; simp, by
        rw [hxml, List.append_assoc, List.drop_left]
        exact List.prefix_append _ _, hfirst⟩
    simpa using this
  have hq := find_quote_absent (pre ++ sourceMarker) tail ht
  rw [← hxml] at hq
  simp only [List.length_append, sourceMarker_length] at hq
  unfold discoverDiskPath
  rw [hfind]
  simp only [hq]

/-! ## Start -/

/-- C9: when the look-up by name does not resolve, `startVM` returns failure,
the connection state and the file system are unchanged, and the only call made
is the look-up itself: no start request is issued. -/
theorem startVM_not_found {σ δ : Type} (conn : Hypervisor σ δ) (w : World σ δ) (vmName : Str)
    (h : conn.lookupByName w.hv vmName = none) :
    (startVM conn w vmName).1 = false ∧
      (startVM conn w vmName).2.hv = w.hv ∧
      (startVM conn w vmName).2.fs = w.fs ∧
      (startVM conn w vmName).2.log = w.log ++ [Event.lookupByName vmName] ∧
      ∀ d, Event.create d ∉ (startVM conn w vmName).2.log.drop w.log.length := by
  simp [startVM, h]

theorem startVM_not_found_witness :
    (startVM emptyConn ⟨mediaFS, (), []⟩ "ghost".toList).1 = false ∧
      (startVM emptyConn ⟨mediaFS, (), []⟩ "ghost".toList).2.hv = () ∧
      (startVM emptyConn ⟨mediaFS, (), []⟩ "ghost".toList).2.fs = mediaFS ∧
      (startVM emptyConn ⟨mediaFS, (), []⟩ "ghost".toList).2.log =
        [] ++ [Event.lookupByName "ghost".toList] ∧
      ∀ d, Event.create d ∉
        (startVM emptyConn ⟨mediaFS, (), []⟩ "ghost".toList).2.log.drop
          ([] : List (Event Unit)).length :=
  startVM_not_found emptyConn ⟨mediaFS, (), []⟩ "ghost".toList rfl

/-! ## Create: failure paths -/

/-- C8: when the image tool reports a non-zero status, `createVM` returns
failure, never calls the define step (the only call logged is the tool itself)
and leaves the connection state as it was, so every look-up by name answers
what it answered before. -/
theorem createVM_tool_failure {σ δ : Type} (conn : Hypervisor σ δ) (sh : Shell) (w : World σ δ)
    (s : VMSpec)
    (h : (sh (createDiskCmd (diskPathOf s.vmName) s.diskGB) w.fs).1 ≠ 0) :
    (createVM conn sh w s).1 = false ∧
      (∀ xml, Event.defineXML xml ∉ (createVM conn sh w s).2.log.drop w.log.length) ∧
      (∀ e ∈ (createVM conn sh w s).2.log.drop w.log.length, e.isHypervisorCall = false) ∧
      (createVM conn sh w s).2.hv = w.hv ∧
      ∀ n, conn.lookupByName (createVM conn sh w s).2.hv n = conn.lookupByName w.hv n := by
  unfold createVM
  by_cases h1 : fileGood w.fs s.isoPath = true <;>
    by_cases h2 : fileGood w.fs s.virtioPath = true <;>
    simp [h1, h2, h, Event.isHypervisorCall]

theorem createVM_tool_failure_witness :
    (createVM emptyConn failingShell ⟨mediaFS, (), []⟩ (specOf "t1".toList 2048 2 10)).1 = false ∧
      (∀ xml, Event.defineXML xml ∉
        (createVM emptyConn failingShell ⟨mediaFS, (), []⟩
          (specOf "t1".toList 2048 2 10)).2.log.drop ([] : List (Event Unit)).length) ∧
      (∀ e ∈ (createVM emptyConn failingShell ⟨mediaFS, (), []⟩
          (specOf "t1".toList 2048 2 10)).2.log.drop ([] : List (Event Unit)).length,
        e.isHypervisorCall = false) ∧
      (createVM emptyConn failingShell ⟨mediaFS, (), []⟩ (specOf "t1".toList 2048 2 10)).2.hv
        = () ∧
      ∀ n, emptyConn.lookupByName
        (createVM emptyConn failingShell ⟨mediaFS, (), []⟩ (specOf "t1".toList 2048 2 10)).2.hv n
          = emptyConn.lookupByName () n :=
  createVM_tool_failure emptyConn failingShell ⟨mediaFS, (), []⟩ (specOf "t1".toList 2048 2 10)
    (by decide)

/-- C2: when both media files can be opened and the image tool reports
success, a define step that returns no handle makes `createVM` return failure,
and afterwards there is no file at `/var/lib/libvirt/images/<name>.qcow2`: the
path was handed to `unlink` as the last call. -/
theorem createVM_define_failure_rolls_back {σ δ : Type} (conn : Hypervisor σ δ) (sh : Shell)
    (w : World σ δ) (s : VMSpec)
    (hiso : fileGood w.fs s.isoPath = true) (hvirtio : fileGood w.fs s.virtioPath = true)
    (htool : (sh (createDiskCmd (diskPathOf s.vmName) s.diskGB) w.fs).1 = 0)
    (hdef : (conn.defineXML w.hv s.xml).1 = none) :
    (createVM conn sh w s).1 = false ∧
      (createVM conn sh w s).2.fs (imageDir ++ s.vmName ++ ".qcow2".toList) = none ∧
      (createVM conn sh w s).2.log.getLast? =
        some (Event.unlink (imageDir ++ s.vmName ++ ".qcow2".toList)) := by
  unfold VMSpec.xml at hdef
  unfold createVM
  simp only [hiso, hvirtio, htool, hdef]
  simp [unlinkFS, diskPathOf]

theorem createVM_define_failure_rolls_back_witness :
    (createVM emptyConn (writingShell (diskPathOf "t3".toList) "img".toList)
        ⟨mediaFS, (), []⟩ (specOf "t3".toList 2048 2 10)).1 = false ∧
      (createVM emptyConn (writingShell (diskPathOf "t3".toList) "img".toList)
        ⟨mediaFS, (), []⟩ (specOf "t3".toList 2048 2 10)).2.fs
          (imageDir ++ (specOf "t3".toList 2048 2 10).vmName ++ ".qcow2".toList) = none ∧
      (createVM emptyConn (writingShell (diskPathOf "t3".toList) "img".toList)
        ⟨mediaFS, (), []⟩ (specOf "t3".toList 2048 2 10)).2.log.getLast? =
          some (Event.unlink
            (imageDir ++ (specOf "t3".toList 2048 2 10).vmName ++ ".qcow2".toList)) :=
  createVM_define_failure_rolls_back emptyConn
    (writingShell (diskPathOf "t3".toList) "img".toList) ⟨mediaFS, (), []⟩
    (specOf "t3".toList 2048 2 10) (by decide) (by decide) rfl rfl

/-! ## Delete -/

/-- The steps of `deleteVM` for a name that resolves, written out. -/
theorem deleteVM_resolved {σ δ : Type} (conn : Hypervisor σ δ) (w : World σ δ) (vmName : Str)
    (dom : δ) (hdom : conn.lookupByName w.hv vmName = some dom) :
    deleteVM conn w vmName =
      let s := stateAfterStop conn w.hv dom
      let path := discoverDiskPath (conn.getXMLDesc s dom)
      let stop : List (Event δ) := if conn.isActive w.hv dom = 1 then [Event.destroy dom] else []
      let calls : List (Event δ) :=
        [Event.lookupByName vmName, Event.isActive dom] ++ stop ++
          [Event.getXMLDesc dom, Event.undefine dom]
      if (conn.undefine s dom).1 < 0 then
        (false, ⟨w.fs, (conn.undefine s dom).2, w.log ++ calls⟩)
      else if isManaged path = true then
        (true, ⟨unlinkFS w.fs path, (conn.undefine s dom).2, w.log ++ calls ++ [Event.unlink path]⟩)
      else (true, ⟨w.fs, (conn.undefine s dom).2, w.log ++ calls⟩) := by
  unfold deleteVM stateAfterStop
  simp only [hdom]
  by_cases hact : conn.isActive w.hv dom = 1 <;> simp only [hact, if_true, if_false] <;>
    split <;> try split
  all_goals simp

theorem isManaged_nil : isManaged [] = false := by decide

set_option maxRecDepth 100000 in
/-- C1: the claim that `deleteVM` never removes a file outside
`/var/lib/libvirt/images/` is broken by the code at a descriptor whose first
source attribute is
`/var/lib/libvirt/images/../../../../mnt/shared/golden.qcow2`.  The file
`/mnt/shared/golden.qcow2` exists and is outside the managed directory; the
text read out of the descriptor passes the prefix test of source line 212 and
is the path handed to `unlink`; it resolves to `/mnt/shared/golden.qcow2`;
`deleteVM` returns success and the shared file is gone. -/
theorem deleteVM_removes_file_outside :
    goldenFS "/mnt/shared/golden.qcow2".toList = some "golden".toList ∧
      ¬ imageDir <+: "/mnt/shared/golden.qcow2".toList ∧
      discoverDiskPath traversalXml =
        "/var/lib/libvirt/images/../../../../mnt/shared/golden.qcow2".toList ∧
      isManaged "/var/lib/libvirt/images/../../../../mnt/shared/golden.qcow2".toList = true ∧
      resolve "/var/lib/libvirt/images/../../../../mnt/shared/golden.qcow2".toList =
        "/mnt/shared/golden.qcow2".toList ∧
      (deleteVM (oneDomainConn true) ⟨goldenFS, traversalXml, []⟩ "g1".toList).1 = true ∧
      (deleteVM (oneDomainConn true) ⟨goldenFS, traversalXml, []⟩ "g1".toList).2.log.getLast? =
        some (Event.unlink
          "/var/lib/libvirt/images/../../../../mnt/shared/golden.qcow2".toList) ∧
      (deleteVM (oneDomainConn true) ⟨goldenFS, traversalXml, []⟩ "g1".toList).2.fs
        "/mnt/shared/golden.qcow2".toList = none := by
  refine ⟨?_, ?_, ?_, ?_, ?_, ?_, ?_, ?_⟩ <;> decide!

/-- C7: for a name that resolves, a refused undefine makes `deleteVM` return
failure with the file system untouched and no `unlink` issued; an `unlink` is
issued only when undefine was not refused, only for the discovered path, only
if that path passes the managed-directory test, and it directly follows the
undefine call. -/
theorem deleteVM_undefine_gate {σ δ : Type} (conn : Hypervisor σ δ) (w : World σ δ)
    (vmName : Str) (dom : δ) (hdom : conn.lookupByName w.hv vmName = some dom) :
    ((conn.undefine (stateAfterStop conn w.hv dom) dom).1 < 0 →
        (deleteVM conn w vmName).1 = false ∧ (deleteVM conn w vmName).2.fs = w.fs ∧
          ∀ p, Event.unlink p ∉ (deleteVM conn w vmName).2.log.drop w.log.length) ∧
      (∀ p, Event.unlink p ∈ (deleteVM conn w vmName).2.log.drop w.log.length →
        ¬ (conn.undefine (stateAfterStop conn w.hv dom) dom).1 < 0 ∧
          p = discoverDiskPath (conn.getXMLDesc (stateAfterStop conn w.hv dom) dom) ∧
          isManaged p = true ∧
          ∃ before, (deleteVM conn w vmName).2.log.drop w.log.length =
            before ++ [Event.undefine dom, Event.unlink p]) := by
  rw [deleteVM_resolved conn w vmName dom hdom]
  simp only
  split
  · rename_i hu
    refine ⟨fun _ => ⟨rfl, rfl, ?_⟩, ?_⟩
    · intro p hp
      by_cases hact : conn.isActive w.hv dom = 1 <;> simp [hact] at hp
    · intro p hp
      by_cases hact : conn.isActive w.hv dom = 1 <;> simp [hact] at hp
  · rename_i hu
    split
    · rename_i hm
      refine ⟨fun h => absurd h hu, ?_⟩
      intro p hp
      have hp2 : p = discoverDiskPath (conn.getXMLDesc (stateAfterStop conn w.hv dom) dom) := by
        by_cases hact : conn.isActive w.hv dom = 1 <;> simp [hact] at hp <;> exact hp
      subst hp2
      refine ⟨hu, rfl, hm, ?_⟩
      by_cases hact : conn.isActive w.hv dom = 1
      · exact ⟨[Event.lookupByName vmName, Event.isActive dom, Event.destroy dom,
          Event.getXMLDesc dom], by simp [hact]⟩
      · exact ⟨[Event.lookupByName vmName, Event.isActive dom, Event.getXMLDesc dom],
          by simp [hact]⟩
    · refine ⟨fun h => absurd h hu, ?_⟩
      intro p hp
      by_cases hact : conn.isActive w.hv dom = 1 <;> simp [hact] at hp

theorem deleteVM_undefine_gate_witness :
    (deleteVM (oneDomainConn false) ⟨mediaFS, cdromFirstXml, []⟩ "d".toList).1 = false ∧
      (deleteVM (oneDomainConn false) ⟨mediaFS, cdromFirstXml, []⟩ "d".toList).2.fs = mediaFS :=
  have h := (deleteVM_undefine_gate (oneDomainConn false) ⟨mediaFS, cdromFirstXml, []⟩
    "d".toList () rfl).1 (by decide)
  ⟨h.1, h.2.1⟩

/-- The `unlink` calls of `deleteVM` for a name that resolves. -/
theorem deleteVM_unlink_events {σ δ : Type} (conn : Hypervisor σ δ) (w : World σ δ)
    (vmName : Str) (dom : δ) (hdom : conn.lookupByName w.hv vmName = some dom) :
    ((deleteVM conn w vmName).2.log.drop w.log.length).filter Event.isUnlink =
      if ¬ (conn.undefine (stateAfterStop conn w.hv dom) dom).1 < 0 ∧
          isManaged (discoverDiskPath (conn.getXMLDesc (stateAfterStop conn w.hv dom) dom)) = true
      then [Event.unlink (discoverDiskPath (conn.getXMLDesc (stateAfterStop conn w.hv dom) dom))]
      else [] := by
  rw [deleteVM_resolved conn w vmName dom hdom]
  simp only
  by_cases hu : (conn.undefine (stateAfterStop conn w.hv dom) dom).1 < 0
  · by_cases hact : conn.isActive w.hv dom = 1 <;>
      simp [hu, hact, List.filter_cons, Event.isUnlink]
  · by_cases hm :
        isManaged (discoverDiskPath (conn.getXMLDesc (stateAfterStop conn w.hv dom) dom)) = true
    · by_cases hact : conn.isActive w.hv dom = 1 <;>
        simp [hu, hm, hact, List.filter_cons, List.filter_append, Event.isUnlink]
    · by_cases hact : conn.isActive w.hv dom = 1 <;>
        simp [hu, hm, hact, List.filter_cons, Event.isUnlink]

theorem unlink_mem_filter {δ : Type} (l : List (Event δ)) (q : Str) :
    Event.unlink q ∈ l ↔ Event.unlink q ∈ l.filter Event.isUnlink := by
  simp [List.mem_filter, Event.isUnlink]

/-- C10: for a name that resolves, the text read out of the descriptor is
the deletion candidate of `deleteVM`: when undefine is not refused and the
text passes the managed-directory test, `deleteVM` returns success, the
`unlink` calls of the run are exactly the one for that text and the file
system is the old one with that file removed; otherwise no `unlink` is issued.
That text is what stands between the first `<source file='` and the next
single quote, whichever device the attribute belongs to; it is empty, and
nothing is unlinked, when the descriptor has no such marker or no quote after
it; at most one `unlink` is issued per call. -/
theorem deleteVM_disk_path_discovery {σ δ : Type} (conn : Hypervisor σ δ) (w : World σ δ)
    (vmName : Str) (dom : δ) (xml : Str)
    (hdom : conn.lookupByName w.hv vmName = some dom)
    (hxml : conn.getXMLDesc (stateAfterStop conn w.hv dom) dom = xml) :
    (((deleteVM conn w vmName).2.log.drop w.log.length).filter Event.isUnlink =
        if ¬ (conn.undefine (stateAfterStop conn w.hv dom) dom).1 < 0 ∧
            isManaged (discoverDiskPath xml) = true
        then [Event.unlink (discoverDiskPath xml)] else []) ∧
      (¬ (conn.undefine (stateAfterStop conn w.hv dom) dom).1 < 0 →
        isManaged (discoverDiskPath xml) = true →
        (deleteVM conn w vmName).1 = true ∧
          (deleteVM conn w vmName).2.fs = unlinkFS w.fs (discoverDiskPath xml) ∧
          (deleteVM conn w vmName).2.log.getLast? = some (Event.unlink (discoverDiskPath xml))) ∧
      (∀ q, Event.unlink q ∈ (deleteVM conn w vmName).2.log.drop w.log.length →
        q = discoverDiskPath xml) ∧
      (∀ pre p rest, xml = pre ++ sourceMarker ++ p ++ quote :: rest →
        (∀ j, j < pre.length → ¬ sourceMarker <+: xml.drop j) → quote ∉ p →
        discoverDiskPath xml = p) ∧
      ((∀ j, j ≤ xml.length → ¬ sourceMarker <+: xml.drop j) →
        discoverDiskPath xml = [] ∧
          ∀ q, Event.unlink q ∉ (deleteVM conn w vmName).2.log.drop w.log.length) ∧
      (∀ pre tail, xml = pre ++ sourceMarker ++ tail →
        (∀ j, j < pre.length → ¬ sourceMarker <+: xml.drop j) → quote ∉ tail →
        discoverDiskPath xml = [] ∧
          ∀ q, Event.unlink q ∉ (deleteVM conn w vmName).2.log.drop w.log.length) ∧
      (((deleteVM conn w vmName).2.log.drop w.log.length).filter Event.isUnlink).length ≤ 1 := by
  have hev := deleteVM_unlink_events conn w vmName dom hdom
  rw [hxml] at hev
  have hnone : discoverDiskPath xml = [] →
      ∀ q, Event.unlink q ∉ (deleteVM conn w vmName).2.log.drop w.log.length := by
    intro h q hq
    rw [unlink_mem_filter, hev, h, isManaged_nil] at hq
    simp at hq
  refine ⟨hev, ?_, ?_, ?_, ?_, ?_, ?_⟩
  · intro hu hm
    rw [deleteVM_resolved conn w vmName dom hdom]
    simp only [hxml, if_neg hu, hm, if_true]
    refine ⟨trivial, trivial, ?_⟩
    by_cases hact : conn.isActive w.hv dom = 1 <;> simp [hact]
  · intro q hq
    rw [unlink_mem_filter, hev] at hq
    split at hq
    · simpa using hq
    · simp at hq
  · intro pre p rest h1 h2 h3
    exact discoverDiskPath_eq xml pre p rest h1 h2 h3
  · intro h
    exact ⟨discoverDiskPath_no_marker xml h, hnone (discoverDiskPath_no_marker xml h)⟩
  · intro pre tail h1 h2 h3
    exact ⟨discoverDiskPath_no_quote xml pre tail h1 h2 h3,
      hnone (discoverDiskPath_no_quote xml pre tail h1 h2 h3)⟩
  · rw [hev]
    split <;> simp

set_option maxRecDepth 100000 in
theorem deleteVM_disk_path_discovery_witness :
    discoverDiskPath cdromFirstXml = "/var/lib/libvirt/images/boot.iso".toList ∧
      ((deleteVM (oneDomainConn true) ⟨mediaFS, cdromFirstXml, []⟩ "d".toList).2.log.drop
          ([] : List (Event Unit)).length).filter Event.isUnlink =
        [Event.unlink "/var/lib/libvirt/images/boot.iso".toList] ∧
      (deleteVM (oneDomainConn true) ⟨mediaFS, cdromFirstXml, []⟩ "d".toList).1 = true ∧
      (deleteVM (oneDomainConn true) ⟨mediaFS, cdromFirstXml, []⟩ "d".toList).2.log.getLast? =
        some (Event.unlink "/var/lib/libvirt/images/boot.iso".toList) :=
  have h := deleteVM_disk_path_discovery (oneDomainConn true) ⟨mediaFS, cdromFirstXml, []⟩
    "d".toList () cdromFirstXml rfl rfl
  have hp : discoverDiskPath cdromFirstXml = "/var/lib/libvirt/images/boot.iso".toList :=
    h.2.2.2.1 "<domain type='kvm'><devices><disk type='file' device='cdrom'>".toList
      "/var/lib/libvirt/images/boot.iso".toList
      ("/></disk><disk type='file' device='disk'>" ++
        "<source file='/var/lib/libvirt/images/d.qcow2'/></disk></devices></domain>").toList
      (by decide) (by decide) (by decide)
  have hu : ¬ ((oneDomainConn true).undefine
      (stateAfterStop (oneDomainConn true) cdromFirstXml ()) ()).1 < 0 := by decide
  have hm : isManaged (discoverDiskPath cdromFirstXml) = true := by rw [hp]; decide
  ⟨hp, by rw [h.1, if_pos ⟨hu, hm⟩, hp], (h.2.1 hu hm).1, by rw [(h.2.1 hu hm).2.2, hp]⟩

/-! ## Create: the descriptor and the checks made -/

theorem to_string_memory (m : Int) (hpos : 0 < m) (hmax : m ≤ 2097151) :
    to_string (wrap32 (m * 1024)) = decimal (m.toNat * 1024) := by
  have hw : wrap32 (m * 1024) = m * 1024 := by unfold wrap32; omega
  have hn : (m * 1024).natAbs = m.toNat * 1024 := by omega
  have h0 : ¬ m * 1024 < 0 := by omega
  rw [hw]
  unfold to_string
  rw [if_neg h0, hn]

/-- The calls of a `createVM` that gets as far as the define step. -/
theorem createVM_log {σ δ : Type} (conn : Hypervisor σ δ) (sh : Shell) (w : World σ δ)
    (s : VMSpec) (hiso : fileGood w.fs s.isoPath = true)
    (hvirtio : fileGood w.fs s.virtioPath = true)
    (htool : (sh (createDiskCmd (diskPathOf s.vmName) s.diskGB) w.fs).1 = 0) :
    ((createVM conn sh w s).2.log.drop w.log.length).take 2 =
      [Event.system (createDiskCmd (diskPathOf s.vmName) s.diskGB), Event.defineXML s.xml] := by
  unfold createVM VMSpec.xml
  simp only [hiso, hvirtio, htool]
  cases (conn.defineXML w.hv (xmlConfig s.vmName s.isoPath s.virtioPath (diskPathOf s.vmName)
    s.memoryMB s.vcpus)).1 <;> simp

/-- C5 (as amended): for `0 < memoryMB ≤ 2097151`, the range in which
`memoryMB * 1024` fits a 32-bit `int`, the descriptor `createVM` submits to
the define step carries, between `<memory unit='KiB'>` and `</memory>`, the
decimal digits of exactly `memoryMB * 1024`; for 2048 these are `2097152`. -/
theorem createVM_memory_exact {σ δ : Type} (conn : Hypervisor σ δ) (sh : Shell) (w : World σ δ)
    (s : VMSpec) (hiso : fileGood w.fs s.isoPath = true)
    (hvirtio : fileGood w.fs s.virtioPath = true)
    (htool : (sh (createDiskCmd (diskPathOf s.vmName) s.diskGB) w.fs).1 = 0)
    (hpos : 0 < s.memoryMB) (hmax : s.memoryMB ≤ 2097151) :
    ((createVM conn sh w s).2.log.drop w.log.length).take 2 =
        [Event.system (createDiskCmd (diskPathOf s.vmName) s.diskGB),
          Event.defineXML
            (xmlA ++ s.vmName ++ xmlB ++ decimal (s.memoryMB.toNat * 1024) ++ xmlC ++
              to_string s.vcpus ++ xmlD ++ sourceMarker ++ diskPathOf s.vmName ++ xmlE ++
              sourceMarker ++ s.isoPath ++ xmlF ++ sourceMarker ++ s.virtioPath ++ xmlG)] ∧
      (s.memoryMB = 2048 → decimal (s.memoryMB.toNat * 1024) = "2097152".toList) := by
  constructor
  · rw [createVM_log conn sh w s hiso hvirtio htool]
    unfold VMSpec.xml xmlConfig
    rw [to_string_memory s.memoryMB hpos hmax]
  · intro h
    rw [h]
    decide

set_option maxRecDepth 100000 in
theorem createVM_memory_exact_witness :
    Event.defineXML
        (xmlA ++ "t5".toList ++ xmlB ++ "2097152".toList ++ xmlC ++
          to_string 2 ++ xmlD ++ sourceMarker ++ diskPathOf "t5".toList ++ xmlE ++
          sourceMarker ++ "/iso/win.iso".toList ++ xmlF ++ sourceMarker ++
          "/iso/virtio.iso".toList ++ xmlG) ∈
      (createVM emptyConn (writingShell (diskPathOf "t5".toList) "img".toList)
        ⟨mediaFS, (), []⟩ (specOf "t5".toList 2048 2 20)).2.log :=
  have h := createVM_memory_exact emptyConn (writingShell (diskPathOf "t5".toList) "img".toList)
    ⟨mediaFS, (), []⟩ (specOf "t5".toList 2048 2 20) (by decide) (by decide) rfl
    (by decide) (by decide)
  List.mem_of_mem_drop (List.mem_of_mem_take (h.1 ▸ List.mem_cons_of_mem _ (List.mem_singleton.mpr rfl)))

set_option maxRecDepth 100000 in
/-- C5 fails as stated: for `memoryMB = 2097152`, a positive 32-bit value,
the product leaves the range of `int` and the descriptor carries
`-2147483648`, which is not the decimal text of `2097152 * 1024`. -/
theorem createVM_memory_overflow :
    (createVM (oneDomainConn true) (writingShell (diskPathOf "big".toList) "img".toList)
        ⟨mediaFS, [], []⟩ (specOf "big".toList 2097152 2 20)).2.log =
      [Event.system "qemu-img create -f qcow2 /var/lib/libvirt/images/big.qcow2 20G".toList,
        Event.defineXML
          (xmlA ++ "big".toList ++ xmlB ++ "-2147483648".toList ++ xmlC ++
            "2".toList ++ xmlD ++ sourceMarker ++ "/var/lib/libvirt/images/big.qcow2".toList ++
            xmlE ++ sourceMarker ++ "/iso/win.iso".toList ++ xmlF ++ sourceMarker ++
            "/iso/virtio.iso".toList ++ xmlG)] ∧
      "-2147483648".toList ≠ decimal (2097152 * 1024) := by
  constructor
  · decide!
  · decide!

/-- C6 (as amended): the only checks `createVM` makes before acting are that
both media files can be opened; when one cannot, it returns failure with the
file system, the connection state and the log exactly as before (no tool run,
no file created, no libvirt call).  The name and the numbers are not checked
by `createVM`; `main` replaces a memory size, vCPU count or disk size that is
not positive by 2048, 2 and 20 and keeps a positive one, so the values it
passes on are positive. -/
theorem createVM_missing_media_no_effect {σ δ : Type} (conn : Hypervisor σ δ) (sh : Shell)
    (w : World σ δ) (s : VMSpec)
    (h : fileGood w.fs s.isoPath = false ∨ fileGood w.fs s.virtioPath = false) :
    createVM conn sh w s = (false, w) ∧
      ∀ (vmName isoPath virtioPath : Str) (m v d : Int),
        0 < (readVMSpec vmName isoPath virtioPath m v d).memoryMB ∧
        0 < (readVMSpec vmName isoPath virtioPath m v d).vcpus ∧
        0 < (readVMSpec vmName isoPath virtioPath m v d).diskGB ∧
        (readVMSpec vmName isoPath virtioPath m v d).memoryMB = (if 0 < m then m else 2048) ∧
        (readVMSpec vmName isoPath virtioPath m v d).vcpus = (if 0 < v then v else 2) ∧
        (readVMSpec vmName isoPath virtioPath m v d).diskGB = (if 0 < d then d else 20) ∧
        (readVMSpec vmName isoPath virtioPath m v d).vmName = vmName := by
  constructor
  · unfold createVM
    rcases h with h | h
    · simp [h]
    · by_cases h1 : fileGood w.fs s.isoPath = true <;> simp [h1, h]
  · intro vmName isoPath virtioPath m v d
    unfold readVMSpec
    simp only
    refine ⟨?_, ?_, ?_, ?_, ?_, ?_, trivial⟩ <;> split <;> omega

theorem createVM_missing_media_no_effect_witness :
    createVM emptyConn failingShell ⟨mediaFS, (), []⟩
        ⟨"t6".toList, "/iso/none.iso".toList, "/iso/virtio.iso".toList, 2048, 2, 20⟩ =
      (false, ⟨mediaFS, (), []⟩) :=
  (createVM_missing_media_no_effect emptyConn failingShell ⟨mediaFS, (), []⟩
    ⟨"t6".toList, "/iso/none.iso".toList, "/iso/virtio.iso".toList, 2048, 2, 20⟩
    (Or.inl (by decide))).1

set_option maxRecDepth 100000 in
/-- C6 fails as stated: with an empty name and with memory, vCPU and disk
values of 0, -1 and 0, `createVM` does not fail; it runs the image tool on
`/var/lib/libvirt/images/.qcow2`, which creates that file, calls the define
step and returns success. -/
theorem createVM_accepts_invalid_spec :
    (createVM (oneDomainConn true) (writingShell (diskPathOf []) "img".toList)
        ⟨mediaFS, [], []⟩ (specOf [] 0 (-1) 0)).1 = true ∧
      (createVM (oneDomainConn true) (writingShell (diskPathOf []) "img".toList)
        ⟨mediaFS, [], []⟩ (specOf [] 0 (-1) 0)).2.log.head? =
          some (Event.system "qemu-img create -f qcow2 /var/lib/libvirt/images/.qcow2 0G".toList) ∧
      (createVM (oneDomainConn true) (writingShell (diskPathOf []) "img".toList)
        ⟨mediaFS, [], []⟩ (specOf [] 0 (-1) 0)).2.log.length = 2 ∧
      mediaFS "/var/lib/libvirt/images/.qcow2".toList = none ∧
      (createVM (oneDomainConn true) (writingShell (diskPathOf []) "img".toList)
        ⟨mediaFS, [], []⟩ (specOf [] 0 (-1) 0)).2.fs "/var/lib/libvirt/images/.qcow2".toList =
          some "img".toList := by
  refine ⟨?_, ?_, ?_, ?_, ?_⟩ <;> decide!

/-! ## Create: a managed disk path that is already taken -/

/-- C4 (as amended): `createVM` has no existence test of its own and runs the
image tool on the managed disk path whether or not a file is stored there.
With a file at that path before the call, `createVM` returns failure and the
file is still there with the same content, with no `unlink` issued, whenever
the image tool itself reports failure and leaves that file as it was. -/
theorem createVM_existing_disk_kept {σ δ : Type} (conn : Hypervisor σ δ) (sh : Shell)
    (w : World σ δ) (s : VMSpec) (c : Str)
    (hpre : w.fs (diskPathOf s.vmName) = some c)
    (hret : (sh (createDiskCmd (diskPathOf s.vmName) s.diskGB) w.fs).1 ≠ 0)
    (hkeep : (sh (createDiskCmd (diskPathOf s.vmName) s.diskGB) w.fs).2 (diskPathOf s.vmName)
      = some c) :
    (createVM conn sh w s).1 = false ∧
      (createVM conn sh w s).2.fs (diskPathOf s.vmName) = some c ∧
      (∀ p, Event.unlink p ∉ (createVM conn sh w s).2.log.drop w.log.length) ∧
      (fileGood w.fs s.isoPath = true → fileGood w.fs s.virtioPath = true →
        (createVM conn sh w s).2.log.drop w.log.length =
          [Event.system (createDiskCmd (diskPathOf s.vmName) s.diskGB)]) := by
  unfold createVM
  by_cases h1 : fileGood w.fs s.isoPath = true <;>
    by_cases h2 : fileGood w.fs s.virtioPath = true <;>
    simp [h1, h2, hret, hkeep, hpre]

theorem createVM_existing_disk_kept_witness :
    (createVM emptyConn failingShell ⟨occupiedFS, (), []⟩ (specOf "vm1".toList 2048 2 20)).1
        = false ∧
      (createVM emptyConn failingShell ⟨occupiedFS, (), []⟩ (specOf "vm1".toList 2048 2 20)).2.fs
        (diskPathOf "vm1".toList) = some "old".toList :=
  have h := createVM_existing_disk_kept emptyConn failingShell ⟨occupiedFS, (), []⟩
    (specOf "vm1".toList 2048 2 20) "old".toList (by decide) (by decide) (by decide)
  ⟨h.1, h.2.1⟩

set_option maxRecDepth 100000 in
/-- C4 fails as stated: with `old` stored at
`/var/lib/libvirt/images/vm1.qcow2` and an image tool that succeeds,
`createVM` returns success and the file holds what the tool wrote; when the
define step then fails, `createVM` returns failure and the file is gone. -/
theorem createVM_existing_disk_overwritten :
    occupiedFS (diskPathOf "vm1".toList) = some "old".toList ∧
      (createVM (oneDomainConn true) (writingShell (diskPathOf "vm1".toList) "new".toList)
        ⟨occupiedFS, [], []⟩ (specOf "vm1".toList 2048 2 20)).1 = true ∧
      (createVM (oneDomainConn true) (writingShell (diskPathOf "vm1".toList) "new".toList)
        ⟨occupiedFS, [], []⟩ (specOf "vm1".toList 2048 2 20)).2.fs (diskPathOf "vm1".toList)
          = some "new".toList ∧
      (createVM emptyConn (writingShell (diskPathOf "vm1".toList) "new".toList)
        ⟨occupiedFS, (), []⟩ (specOf "vm1".toList 2048 2 20)).1 = false ∧
      (createVM emptyConn (writingShell (diskPathOf "vm1".toList) "new".toList)
        ⟨occupiedFS, (), []⟩ (specOf "vm1".toList 2048 2 20)).2.fs (diskPathOf "vm1".toList)
          = none := by
  refine ⟨?_, ?_, ?_, ?_, ?_⟩ <;> decide!

/-! ## Where the first source attribute of a built descriptor is -/

end HypervisorCLI
